import Mathlib

/-!
Verification of the OntoEmma entity-alignment pipeline.

This file gives a shallow embedding, in Lean 4, of the core operations of the
OntoEmma ontology matcher (src/src/OntoEmma.py, src/src/FeatureGenerator.py and
src/emma/allennlp_classes/ontoemma_dataset_reader_no-context.py), and proves or
refutes the specified properties of those operations.

Modelling conventions:
* Python floats are modelled as rationals (ℚ); Python's `/` is modelled by a
  checked division that raises `ZeroDivisionError` exactly when the denominator
  is zero, mirroring Python semantics.
* Fallible Python code is modelled in the `Except PyErr` monad.
* Python `set` objects are modelled as `Finset`; Python `dict` objects as
  association lists.
* External collaborators that are not part of the matching pipeline (the
  classifier, the candidate selector, nltk's tokenizers/stemmers, the PRNG
  behind `random.sample`) are taken as parameters of the embedded functions,
  exactly where the source delegates to them.
-/

namespace Ontoemma

/-- The Python exceptions that the embedded code can raise. -/
inductive PyErr where
  | keyError
  | valueError
  | zeroDivisionError
  | indexError
  deriving DecidableEq, Repr

instance {ε α : Type} [DecidableEq ε] [DecidableEq α] : DecidableEq (Except ε α)
  | .error e, .error f =>
    if h : e = f then .isTrue (by rw [h]) else .isFalse (by intro k; cases k; exact h rfl)
  | .error _, .ok _ => .isFalse (by intro k; cases k)
  | .ok _, .error _ => .isFalse (by intro k; cases k)
  | .ok a, .ok b =>
    if h : a = b then .isTrue (by rw [h]) else .isFalse (by intro k; cases k; exact h rfl)

/-- A Python list comprehension `[expr for x in l if cond]` over fallible
`expr`/`cond`: each element is processed in order, the first raised exception
aborts the whole comprehension. -/
def listCompM {β γ : Type} (f : β → Except PyErr (Option γ)) : List β → Except PyErr (List γ)
  | [] => .ok []
  | b :: l => do
    let o ← f b
    let rest ← listCompM f l
    pure (match o with | some c => c :: rest | none => rest)

/-- Python's `/` on numbers: raises `ZeroDivisionError` on a zero denominator,
otherwise true division. -/
def pyDiv (a b : ℚ) : Except PyErr ℚ :=
  if b = 0 then .error .zeroDivisionError else .ok (a / b)

/-- Characters stripped by Python's `float(str)` conversion. -/
def isPySpace (c : Char) : Bool :=
  c = ' ' || c = '\t' || c = '\n' || c = '\r' || c = '\x0b' || c = '\x0c'

/-- Numeric value of a digit string (most significant first). -/
def digitsVal (cs : List Char) : ℕ :=
  cs.foldl (fun n c => 10 * n + (c.toNat - '0'.toNat)) 0

/-- Parse the optional exponent suffix of a float literal; the whole rest of
the input must be consumed. -/
def parseExpSuffix : List Char → Option ℤ
  | [] => some 0
  | c :: rest =>
    if c = 'e' || c = 'E' then
      let (sign, rest') : ℤ × List Char :=
        match rest with
        | '+' :: r => (1, r)
        | '-' :: r => (-1, r)
        | r => (1, r)
      let (ds, rest'') := rest'.span Char.isDigit
      if ds = [] ∨ rest'' ≠ [] then none else some (sign * (digitsVal ds : ℤ))
    else none

/-- Parse the unsigned part of a float literal: digits with an optional dot
(at least one digit overall), then an optional exponent. -/
def pyFloatMag (cs : List Char) : Option ℚ :=
  let (intPart, rest) := cs.span Char.isDigit
  match rest with
  | '.' :: rest' =>
    let (fracPart, rest'') := rest'.span Char.isDigit
    if intPart = [] ∧ fracPart = [] then none
    else
      (parseExpSuffix rest'').map fun e =>
        ((digitsVal intPart : ℚ) + (digitsVal fracPart : ℚ) / 10 ^ fracPart.length) * 10 ^ e
  | _ =>
    if intPart = [] then none
    else (parseExpSuffix rest).map fun e => (digitsVal intPart : ℚ) * 10 ^ e

/-- Model of Python's `float(str)` on finite decimal literals: whitespace is
stripped, an optional sign is followed by a decimal mantissa and an optional
exponent.  Returns `none` (Python: raises `ValueError`) when the string is not
a float literal, e.g. on `"="`. -/
def pyFloat (s : String) : Option ℚ :=
  let cs := ((s.data.dropWhile isPySpace).reverse.dropWhile isPySpace).reverse
  match cs with
  | '+' :: rest => pyFloatMag rest
  | '-' :: rest => (pyFloatMag rest).map Neg.neg
  | cs => pyFloatMag cs

/-!
## Evaluation against a gold alignment (`OntoEmma.evaluate_alignment`)

A gold measure, as produced by `load_alignment`, is either a float (the `.tsv`
loader applies `float` to the label column), a raw string (the `.rdf` loader
takes the text of the `<measure>` element), or Python `None` (an empty
`<measure/>` element has `.text is None`).
-/

/-- A dynamically typed gold measure value. -/
inductive PyVal where
  | vNone
  | vNum (q : ℚ)
  | vStr (s : String)
  deriving DecidableEq, Repr

/-- The positivity test `score is not None and score != '' and float(score) > 0.0`
from `evaluate_alignment`.  Note `float(score)` raises `ValueError` if `score`
is a non-empty string that does not parse as a float; a float compared with
`''` is simply unequal. -/
def measPositive : PyVal → Except PyErr Bool
  | .vNone => .ok false
  | .vNum q => .ok (decide (0 < q))
  | .vStr s =>
    if s = "" then .ok false
    else
      match pyFloat s with
      | none => .error .valueError
      | some q => .ok (decide (0 < q))

/-- The set comprehension computing `gold_positives` in `evaluate_alignment`. -/
def gold_positives (gold : List (String × String × PyVal)) :
    Except PyErr (Finset (String × String)) := do
  let l ← listCompM (fun e => do
    let b ← measPositive e.2.2
    pure (if b then some (e.1, e.2.1) else none)) gold
  pure l.toFinset

/-- `OntoEmma.evaluate_alignment`, with the gold file already loaded into a
list of (source, target, measure) entries and the produced alignment given as
(source, target, score) triples.  The writing of the missed-pair diagnostics
file changes no computed value and is omitted.  Returns the
(precision, recall, F1) triple, each component `none` when the source leaves
the corresponding Python variable at `None`. -/
def evaluate_alignment (gold : List (String × String × PyVal))
    (alignment : List (String × String × ℚ)) :
    Except PyErr (Option ℚ × Option ℚ × Option ℚ) := do
  let gp ← gold_positives gold
  let ap := (alignment.map fun x => (x.1, x.2.1)).toFinset
  if 0 < ap.card then do
    let p ← pyDiv ((ap ∩ gp).card : ℚ) (ap.card : ℚ)
    let r ← pyDiv ((ap ∩ gp).card : ℚ) (gp.card : ℚ)
    if 0 < p + r then do
      let f ← pyDiv (2 * p * r) (p + r)
      pure (some p, some r, some f)
    else
      pure (some p, some r, Option.none)
  else
    pure (Option.none, Option.none, Option.none)

/-!
## Feature generation (`FeatureGenerator`)

`string_utils.normalize_string` / `string_utils.tokenize_string` and nltk's
stemmer/lemmatizer are external to the matching pipeline; the embedded
functions take them as parameters.  Token tuples are modelled as `List String`.
-/

/-- Modelled from the spec: `string_utils.get_jaccard_similarity` (the module
`string_utils.py` is not part of the sources); per spec §4.1 it is
`|A∩B| / |A∪B|`, defined as 1.0 when both sets are empty. -/
def get_jaccard_similarity {α : Type} [DecidableEq α] (A B : Finset α) : ℚ :=
  if A ∪ B = ∅ then 1 else ((A ∩ B).card : ℚ) / ((A ∪ B).card : ℚ)

/-- Modelled from the spec: nltk's `edit_distance` (external library), per
spec §4.1 the classic Levenshtein distance over token sequences. -/
def edit_distance {α : Type} [DecidableEq α] : List α → List α → ℕ
  | [], ys => ys.length
  | x :: xs, [] => (x :: xs).length
  | x :: xs, y :: ys =>
    min (min (edit_distance xs ys + (if x = y then 0 else 1))
             (edit_distance xs (y :: ys) + 1))
        (edit_distance (x :: xs) ys + 1)
  termination_by xs ys => xs.length + ys.length

/-- The cached token signature of one entity (one entry of
`FeatureGenerator.s_tokens` / `t_tokens`, as built by `_compute_tokens`). -/
structure TokenSig where
  nameTokens : List String
  stemmedTokens : List String
  lemmatizedTokens : List String
  charTokens : List String
  aliasTokens : List (List String)
  parentNames : Finset (List String)
  childNames : Finset (List String)
  deriving DecidableEq

/-- The feature dictionary produced by `calculate_features`. -/
structure Features where
  has_same_canonical_name : Bool
  has_same_stemmed_name : Bool
  has_same_lemmatized_name : Bool
  has_same_char_tokens : Bool
  has_alias_in_common : Bool
  name_token_jaccard : ℚ
  inverse_name_edit_distance : ℚ
  stemmed_token_jaccard : ℚ
  inverse_stemmed_edit_distance : ℚ
  lemmatized_token_jaccard : ℚ
  inverse_lemmatized_edit_distance : ℚ
  char_token_jaccard : ℚ
  inverse_char_token_edit_distance : ℚ
  max_alias_token_jaccard : ℚ
  inverse_min_alias_edit_distance : ℚ
  percent_parents_in_common : ℚ
  percent_children_in_common : ℚ
  deriving DecidableEq

/-- The best-alias scan of `calculate_features` (the nested loop over all
alias-token pairs), returning the running pair
(`max_alias_token_jaccard`, `min_alias_edit_distance`). -/
def alias_scan (sAliases tAliases : List (List String)) : Except PyErr (ℚ × ℚ) :=
  sAliases.foldlM (fun acc sa =>
    tAliases.foldlM (fun acc ta =>
      if sa ≠ [] ∧ ta ≠ [] then do
        let jInd := get_jaccard_similarity sa.toFinset ta.toFinset
        let acc1 := if acc.1 < jInd then (jInd, acc.2) else acc
        let eDist ← pyDiv (edit_distance sa ta : ℚ) ((sa.length + ta.length : ℕ) : ℚ)
        pure (if eDist < acc1.2 then (acc1.1, eDist) else acc1)
      else pure acc) acc) ((0 : ℚ), (1 : ℚ))

/-- Pure value of the best-alias scan (every divisor in the scan is the total
length of two non-empty lists, hence non-zero). -/
def alias_scan_val (sAliases tAliases : List (List String)) : ℚ × ℚ :=
  sAliases.foldl (fun acc sa =>
    tAliases.foldl (fun acc ta =>
      if sa ≠ [] ∧ ta ≠ [] then
        let jInd := get_jaccard_similarity sa.toFinset ta.toFinset
        let acc1 := if acc.1 < jInd then (jInd, acc.2) else acc
        let eDist := (edit_distance sa ta : ℚ) / ((sa.length + ta.length : ℕ) : ℚ)
        if eDist < acc1.2 then (acc1.1, eDist) else acc1
      else acc) acc) ((0 : ℚ), (1 : ℚ))

/-- One textual-representation block of `calculate_features` (the four blocks
for name / stemmed / lemmatized / char tokens are textually identical in the
source): if the equality flag is set, 1.0 for both the Jaccard and the
inverse edit distance without dividing; otherwise computed Jaccard and
`1 - edit_distance / maxCh`, where `maxCh` is the divisor the source uses for
this block. -/
def repr_vals (eq : Bool) (a b : List String) (maxCh : ℚ) : Except PyErr (ℚ × ℚ) :=
  if eq then pure ((1 : ℚ), (1 : ℚ))
  else do
    let e ← pyDiv (edit_distance a b : ℚ) maxCh
    pure (get_jaccard_similarity a.toFinset b.toFinset, 1 - e)

/-- The alias-feature block of `calculate_features`: the running pair stays at
its initial value `(0.0, 1.0)` when `has_alias_in_common` is set, otherwise
the nested scan runs. -/
def alias_vals (hasAliasInCommon : Bool) (sa ta : List (List String)) :
    Except PyErr (ℚ × ℚ) :=
  if hasAliasInCommon then pure ((0 : ℚ), (1 : ℚ))
  else alias_scan sa ta

/-- One relational block of `calculate_features` (parents and children are
textually identical in the source): `|A ∩ B| / ((|A| + |B|) / 2)` when both
sides are non-empty, else the initial 0.0. -/
def percent_rel (A B : Finset (List String)) : Except PyErr ℚ :=
  if 0 < A.card && 0 < B.card then
    pyDiv ((A ∩ B).card : ℚ) (((A.card + B.card : ℕ) : ℚ) / 2)
  else pure (0 : ℚ)

/-- `FeatureGenerator.calculate_features`, applied to the two cached token
signatures.  Every Python `/` is the checked `pyDiv`.  Note that the stemmed
and lemmatized blocks divide by `max_changes`, the summed length of the *raw
name* token lists, exactly as the source does. -/
def calculate_features (s t : TokenSig) : Except PyErr Features := do
  let max_changes : ℚ := ((s.nameTokens.length + t.nameTokens.length : ℕ) : ℚ)
  let max_char_changes : ℚ := ((s.charTokens.length + t.charTokens.length : ℕ) : ℚ)
  let has_alias_in_common :=
    decide (0 < (s.aliasTokens.toFinset ∩ t.aliasTokens.toFinset).card)
  let nameVals ←
    repr_vals (decide (s.nameTokens = t.nameTokens)) s.nameTokens t.nameTokens max_changes
  let stemmedVals ←
    repr_vals (decide (s.stemmedTokens = t.stemmedTokens)) s.stemmedTokens t.stemmedTokens
      max_changes
  let lemmatizedVals ←
    repr_vals (decide (s.lemmatizedTokens = t.lemmatizedTokens)) s.lemmatizedTokens
      t.lemmatizedTokens max_changes
  let charVals ←
    repr_vals (decide (s.charTokens = t.charTokens)) s.charTokens t.charTokens
      max_char_changes
  let aliasVals ← alias_vals has_alias_in_common s.aliasTokens t.aliasTokens
  let percent_parents_in_common ← percent_rel s.parentNames t.parentNames
  let percent_children_in_common ← percent_rel s.childNames t.childNames
  pure
    { has_same_canonical_name := decide (s.nameTokens = t.nameTokens)
      has_same_stemmed_name := decide (s.stemmedTokens = t.stemmedTokens)
      has_same_lemmatized_name := decide (s.lemmatizedTokens = t.lemmatizedTokens)
      has_same_char_tokens := decide (s.charTokens = t.charTokens)
      has_alias_in_common := has_alias_in_common
      name_token_jaccard := nameVals.1
      inverse_name_edit_distance := nameVals.2
      stemmed_token_jaccard := stemmedVals.1
      inverse_stemmed_edit_distance := stemmedVals.2
      lemmatized_token_jaccard := lemmatizedVals.1
      inverse_lemmatized_edit_distance := lemmatizedVals.2
      char_token_jaccard := charVals.1
      inverse_char_token_edit_distance := charVals.2
      max_alias_token_jaccard := aliasVals.1
      inverse_min_alias_edit_distance := 1 - aliasVals.2
      percent_parents_in_common := percent_parents_in_common
      percent_children_in_common := percent_children_in_common }

/-- The pure value of one textual-representation block. -/
def repr_vals_spec (eq : Bool) (a b : List String) (maxCh : ℚ) : ℚ × ℚ :=
  if eq then ((1 : ℚ), (1 : ℚ))
  else (get_jaccard_similarity a.toFinset b.toFinset, 1 - (edit_distance a b : ℚ) / maxCh)

/-- The pure value of one relational block. -/
def percent_rel_spec (A B : Finset (List String)) : ℚ :=
  if 0 < A.card && 0 < B.card then
    ((A ∩ B).card : ℚ) / (((A.card + B.card : ℕ) : ℚ) / 2)
  else 0

/-- The value `calculate_features` computes whenever it completes, written
with total division. -/
def featuresSpec (s t : TokenSig) : Features :=
  let max_changes : ℚ := ((s.nameTokens.length + t.nameTokens.length : ℕ) : ℚ)
  let max_char_changes : ℚ := ((s.charTokens.length + t.charTokens.length : ℕ) : ℚ)
  let nameVals := repr_vals_spec (decide (s.nameTokens = t.nameTokens))
    s.nameTokens t.nameTokens max_changes
  let stemmedVals := repr_vals_spec (decide (s.stemmedTokens = t.stemmedTokens))
    s.stemmedTokens t.stemmedTokens max_changes
  let lemmatizedVals := repr_vals_spec (decide (s.lemmatizedTokens = t.lemmatizedTokens))
    s.lemmatizedTokens t.lemmatizedTokens max_changes
  let charVals := repr_vals_spec (decide (s.charTokens = t.charTokens))
    s.charTokens t.charTokens max_char_changes
  let aliasVals :=
    if 0 < (s.aliasTokens.toFinset ∩ t.aliasTokens.toFinset).card then ((0 : ℚ), (1 : ℚ))
    else alias_scan_val s.aliasTokens t.aliasTokens
  { has_same_canonical_name := decide (s.nameTokens = t.nameTokens)
    has_same_stemmed_name := decide (s.stemmedTokens = t.stemmedTokens)
    has_same_lemmatized_name := decide (s.lemmatizedTokens = t.lemmatizedTokens)
    has_same_char_tokens := decide (s.charTokens = t.charTokens)
    has_alias_in_common := decide (0 < (s.aliasTokens.toFinset ∩ t.aliasTokens.toFinset).card)
    name_token_jaccard := nameVals.1
    inverse_name_edit_distance := nameVals.2
    stemmed_token_jaccard := stemmedVals.1
    inverse_stemmed_edit_distance := stemmedVals.2
    lemmatized_token_jaccard := lemmatizedVals.1
    inverse_lemmatized_edit_distance := lemmatizedVals.2
    char_token_jaccard := charVals.1
    inverse_char_token_edit_distance := charVals.2
    max_alias_token_jaccard := aliasVals.1
    inverse_min_alias_edit_distance := 1 - aliasVals.2
    percent_parents_in_common := percent_rel_spec s.parentNames t.parentNames
    percent_children_in_common := percent_rel_spec s.childNames t.childNames }

/-!
## Knowledge bases and relation traversal
-/

/-- A typed relation edge (external `kb_utils_refactor` record, as accessed by
the pipeline: a relation type label and the list of endpoint entity ids). -/
structure Relation where
  relation_type : String
  entity_ids : List String
  deriving DecidableEq, Repr

/-- An entity record, with the fields the pipeline reads. -/
structure Entity where
  research_entity_id : String
  canonical_name : String
  aliases : List String
  relation_ids : List String
  deriving DecidableEq, Repr

/-- Modelled from the spec: the external `KnowledgeBase` class (spec §2: a
mapping from entity id to entity record, exposing lookup by id).  Python
dicts are modelled as association lists. -/
structure KnowledgeBase where
  entities : List Entity
  relations : List (String × Relation)
  research_entity_id_to_entity_index : List (String × ℕ)
  deriving DecidableEq, Repr

/-- Modelled from the spec: `KnowledgeBase.get_entity_by_research_entity_id`,
the id-to-entity lookup (returns `None` for an unknown id, cf. the `if ent:`
and `except AttributeError` guards at its call sites). -/
def get_entity_by_research_entity_id (kb : KnowledgeBase) (entId : String) : Option Entity :=
  (kb.research_entity_id_to_entity_index.lookup entId).bind fun i => kb.entities.get? i

/-- `FeatureGenerator.PARENT_REL_LABELS`. -/
def PARENT_REL_LABELS : List String :=
  ["RB", "PAR", "Is a", "Part of", "subClassOf", "is_a", "part_of"]

/-- `FeatureGenerator.CHILD_REL_LABELS`. -/
def CHILD_REL_LABELS : List String :=
  ["RN", "CHD", "Has part", "subClass", "has_part"]

/-- `FeatureGenerator._get_ent_names_from_relations`.  `normalize`/`tokenize`
are `string_utils.normalize_string` and `string_utils.tokenize_string` with
the generator's tokenizer and stopword set.  A relation id missing from
`kb.relations` raises `KeyError`; a relation with fewer than two endpoints
raises `IndexError`; an endpoint id missing from the entity index is filtered
out; an endpoint whose entity lookup returns `None` is skipped by `if ent:`. -/
def get_ent_names_from_relations (normalize : String → String)
    (tokenize : String → List String) (ent : Entity) (kb : KnowledgeBase)
    (rel_types : List String) : Except PyErr (List (List String)) := do
  let matching_rels ← listCompM (fun relId =>
    match kb.relations.lookup relId with
    | some r => pure (some r)
    | none => .error .keyError) ent.relation_ids
  let ent_ids ← listCompM (fun rel =>
    if rel.relation_type ∈ rel_types then
      match rel.entity_ids.get? 1 with
      | none => .error .indexError
      | some eid =>
        pure (if (kb.research_entity_id_to_entity_index.lookup eid).isSome
              then some eid else none)
    else pure none) matching_rels
  pure (ent_ids.filterMap fun eid =>
    (get_entity_by_research_entity_id kb eid).map fun e =>
      tokenize (normalize e.canonical_name))

/-- `FeatureGenerator._compute_tokens`: the token signature cached for one
entity.  `stem`/`lemm`/`charGrams` model the external nltk stemmer and
lemmatizer and `string_utils.get_character_n_grams` at the fixed n-gram
size. -/
def compute_tokens (normalize : String → String) (tokenize : String → List String)
    (stem lemm : String → String) (charGrams : String → List String)
    (ent : Entity) (kb : KnowledgeBase) : Except PyErr TokenSig := do
  let name_string := normalize ent.canonical_name
  let name_tokens := tokenize name_string
  let parent_names ← get_ent_names_from_relations normalize tokenize ent kb PARENT_REL_LABELS
  let child_names ← get_ent_names_from_relations normalize tokenize ent kb CHILD_REL_LABELS
  pure
    { nameTokens := name_tokens
      stemmedTokens := name_tokens.map stem
      lemmatizedTokens := name_tokens.map lemm
      charTokens := charGrams name_string
      aliasTokens := ent.aliases.map fun a => tokenize (normalize a)
      parentNames := parent_names.toFinset
      childNames := child_names.toFinset }

/-!
## The alignment loop (`OntoEmma.align`)

The candidate selector and the classifier are external collaborators
(`CandidateSelection.select_candidates`, `OntoEmmaModel.predict_entity_pair`);
they enter as the parameters `cand_sel` and `predict`, and `predict s t` is
the match probability `score[0][1]` the classifier returns for the feature
vector of the pair `(s, t)`.  `K` is `constants.KEEP_TOP_K_CANDIDATES` and
`threshold` is `constants.SCORE_THRESHOLD`. -/

/-- The prediction loop of `OntoEmma.align` that builds the alignment list. -/
def align (cand_sel : String → List String) (K : ℕ) (predict : String → String → ℚ)
    (threshold : ℚ) (s_kb : KnowledgeBase) : List (String × String × ℚ) :=
  s_kb.entities.foldl (fun alignment s_ent =>
    ((cand_sel s_ent.research_entity_id).take K).foldl (fun alignment t_ent_id =>
      let score := predict s_ent.research_entity_id t_ent_id
      if threshold ≤ score then
        alignment ++ [(s_ent.research_entity_id, t_ent_id, score)]
      else alignment) alignment) []

/-!
## The dataset reader (`OntologyMatchingDatasetReader.text_to_instance`)

The tokenizer and the PRNG behind `random.sample` are external; `sample`
models `random.sample` as a pure function of the population, the sample size
and the PRNG state (of abstract type `ρ`), returning the sample and the
advanced state.
-/

/-- The `sample_n` lambda of `text_to_instance`: a list no longer than the
bound is used as is (and the PRNG state is not consumed); an oversized list
is subsampled. -/
def sample_n {ρ : Type} (sample : List String → ℕ → ρ → List String × ρ)
    (l : List String) (k : ℕ) (rs : ρ) : List String × ρ :=
  if l.length ≤ k then (l, rs) else sample l k rs

/-- One entity dictionary of a training instance, with the keys
`text_to_instance` reads. -/
structure ReaderEntity where
  canonical_name : String
  aliases : List String
  definition : String
  par_relations : List String
  chd_relations : List String
  deriving DecidableEq, Repr

/-- The fields of the produced `Instance`: each `TextField` is its token
list, each `ListField` a list of token lists. -/
structure InstanceFields where
  s_ent_name : List String
  t_ent_name : List String
  s_ent_aliases : List (List String)
  t_ent_aliases : List (List String)
  s_ent_def : List String
  t_ent_def : List String
  s_ent_parents : List (List String)
  t_ent_parents : List (List String)
  s_ent_children : List (List String)
  t_ent_children : List (List String)
  label : Option String
  deriving DecidableEq, Repr

/-- `OntologyMatchingDatasetReader.text_to_instance`, with the six `sample_n`
applications threading the PRNG state in source order. -/
def text_to_instance {ρ : Type} (sample : List String → ℕ → ρ → List String × ρ)
    (tokenize : String → List String) (s_ent t_ent : ReaderEntity)
    (label : Option String) (rs : ρ) : InstanceFields × ρ :=
  let s_name_tokens := tokenize ("00000 " ++ s_ent.canonical_name)
  let t_name_tokens := tokenize ("00000 " ++ t_ent.canonical_name)
  let (s_aliases, rs) := sample_n sample s_ent.aliases 16 rs
  let (t_aliases, rs) := sample_n sample t_ent.aliases 16 rs
  let (s_parrels, rs) := sample_n sample s_ent.par_relations 8 rs
  let (t_parrels, rs) := sample_n sample t_ent.par_relations 8 rs
  let (s_chdrels, rs) := sample_n sample s_ent.chd_relations 8 rs
  let (t_chdrels, rs) := sample_n sample t_ent.chd_relations 8 rs
  (⟨s_name_tokens, t_name_tokens,
    s_aliases.map tokenize, t_aliases.map tokenize,
    (if s_ent.definition ≠ "" then tokenize s_ent.definition else tokenize "00000"),
    (if t_ent.definition ≠ "" then tokenize t_ent.definition else tokenize "00000"),
    (if s_parrels ≠ [] then s_parrels.map tokenize else [tokenize "00000"]),
    (if t_parrels ≠ [] then t_parrels.map tokenize else [tokenize "00000"]),
    (if s_chdrels ≠ [] then s_chdrels.map tokenize else [tokenize "00000"]),
    (if t_chdrels ≠ [] then t_chdrels.map tokenize else [tokenize "00000"]),
    label⟩, rs)

/-!
## TSV serialization (`_write_alignment_to_tsv` / `_load_alignment_from_tsv`)

The writer renders each triple as `source \t target \t score \t OntoEmma \n`,
sorted by score descending; the score is rendered by Python's `str`, modelled
by the parameter `showScore`.  The reader opens the file in text mode
(universal newlines) and parses it with `csv.reader(..., delimiter='\t')`
under the default dialect (quote character `"`, doublequote on); the csv
state machine below reproduces that dialect exactly, including quoted fields.
Files are `List Char`.
-/

/-- Text-mode universal-newline translation applied when re-reading a file:
`\r\n` and bare `\r` both become `\n`. -/
def universal_newlines : List Char → List Char
  | [] => []
  | [c] => if c = '\r' then ['\n'] else [c]
  | c1 :: c2 :: rest =>
    if c1 = '\r' then
      if c2 = '\n' then '\n' :: universal_newlines rest
      else '\n' :: universal_newlines (c2 :: rest)
    else c1 :: universal_newlines (c2 :: rest)

/-- Parser state of the csv reader: `start b` is field start (`b` true when
nothing of the current record has been consumed), `unq` inside an unquoted
field, `quoted` inside a quoted field, `afterq` directly after a closing
quote. -/
inductive CsvMode where
  | start (recStart : Bool)
  | unq
  | quoted
  | afterq
  deriving DecidableEq, Repr

/-- Full state of the csv reader: finished rows, finished fields of the
current row, characters of the current field, and the parser mode. -/
structure CsvState where
  rows : List (List (List Char))
  fields : List (List Char)
  field : List Char
  mode : CsvMode
  deriving DecidableEq, Repr

/-- One character step of `csv.reader` with `delimiter='\t'` and the default
quoting dialect. -/
def csvStep (st : CsvState) (c : Char) : CsvState :=
  match st.mode with
  | .start b =>
    if c = '"' then { st with mode := .quoted }
    else if c = '\t' then ⟨st.rows, st.fields ++ [[]], [], .start false⟩
    else if c = '\n' then
      ⟨st.rows ++ [if b then [] else st.fields ++ [[]]], [], [], .start true⟩
    else ⟨st.rows, st.fields, st.field ++ [c], .unq⟩
  | .unq =>
    if c = '\t' then ⟨st.rows, st.fields ++ [st.field], [], .start false⟩
    else if c = '\n' then ⟨st.rows ++ [st.fields ++ [st.field]], [], [], .start true⟩
    else ⟨st.rows, st.fields, st.field ++ [c], .unq⟩
  | .quoted =>
    if c = '"' then { st with mode := .afterq }
    else ⟨st.rows, st.fields, st.field ++ [c], .quoted⟩
  | .afterq =>
    if c = '"' then ⟨st.rows, st.fields, st.field ++ ['"'], .quoted⟩
    else if c = '\t' then ⟨st.rows, st.fields ++ [st.field], [], .start false⟩
    else if c = '\n' then ⟨st.rows ++ [st.fields ++ [st.field]], [], [], .start true⟩
    else ⟨st.rows, st.fields, st.field ++ [c], .unq⟩

/-- End-of-input handling of the csv reader: an unterminated record becomes a
final row. -/
def csvFinish (st : CsvState) : List (List (List Char)) :=
  match st.mode with
  | .start true => st.rows
  | .start false => st.rows ++ [st.fields ++ [[]]]
  | _ => st.rows ++ [st.fields ++ [st.field]]

/-- `csv.reader` over the whole file content: the rows, each a list of
fields. -/
def csv_reader (cs : List Char) : List (List (List Char)) :=
  csvFinish (cs.foldl csvStep ⟨[], [], [], .start true⟩)

/-- One row of `OntoEmma._load_alignment_from_tsv`'s loop: the row is
unpacked as `s_ent, t_ent, label, _` (a row without exactly four fields
raises `ValueError`) and the label is float-parsed. -/
def load_tsv_row : List (List Char) → Except PyErr (Option (String × String × ℚ))
  | [s_ent, t_ent, label, _x] =>
    match pyFloat (String.mk label) with
    | none => .error .valueError
    | some q => .ok (some (String.mk s_ent, String.mk t_ent, q))
  | _ => .error .valueError

/-- `OntoEmma._load_alignment_from_tsv`: the file is read in text mode
(universal newlines), parsed by `csv.reader` with tab delimiter, and each row
unpacked and float-parsed. -/
def load_alignment_from_tsv (content : List Char) :
    Except PyErr (List (String × String × ℚ)) :=
  listCompM load_tsv_row (csv_reader (universal_newlines content))

/-- One output line `"%s\t%s\t%s\t%s\n" % (s_ent, t_ent, pred, "OntoEmma")`. -/
def tsvLine (showScore : ℚ → List Char) (e : String × String × ℚ) : List Char :=
  e.1.data ++ ['\t'] ++ e.2.1.data ++ ['\t'] ++ showScore e.2.2 ++ ['\t'] ++
    "OntoEmma".data ++ ['\n']

/-- `OntoEmma._write_alignment_to_tsv`: the triples sorted by score
descending (`sorted(..., key=lambda x: x[2], reverse=True)`, a stable sort),
one line each. -/
def write_alignment_to_tsv (showScore : ℚ → List Char)
    (alignment : List (String × String × ℚ)) : List Char :=
  ((List.insertionSort (fun a b : String × String × ℚ => b.2.2 ≤ a.2.2) alignment).map
    (tsvLine showScore)).flatten

/-- The positivity predicate on a gold measure implied by the source's test
(measure present, non-empty, and float-parsing to a positive value), used to
characterize `gold_positives` when no measure aborts the parse. -/
def meas_positive_val : PyVal → Bool
  | .vNone => false
  | .vNum q => decide (0 < q)
  | .vStr s =>
    decide (s ≠ "") &&
      (match pyFloat s with
       | some q => decide (0 < q)
       | none => false)

/-- A gold measure on which the source's positivity test does not raise:
absent, the empty string, a number, or a string that float-parses. -/
def meas_parses : PyVal → Bool
  | .vStr s => s = "" || (pyFloat s).isSome
  | _ => true

/-!
## Theorems
-/

theorem ok_bind {α β : Type} (a : α) (k : α → Except PyErr β) :
    (Except.ok a >>= k : Except PyErr β) = k a := rfl

theorem pyDiv_ok (a b : ℚ) (h : b ≠ 0) : pyDiv a b = .ok (a / b) := by
  simp [pyDiv, h]

theorem foldlM_ok {β γ : Type} (f : γ → β → Except PyErr γ) (g : γ → β → γ)
    (l : List β) (h : ∀ acc b, b ∈ l → f acc b = .ok (g acc b)) :
    ∀ acc, l.foldlM f acc = .ok (l.foldl g acc) := by
  induction l with
  | nil => intro acc; rfl
  | cons b l ih =>
    intro acc
    have hb := h acc b (by simp)
    simp only [List.foldlM, List.foldl, hb]
    exact ih (fun a x hx => h a x (by simp [hx])) (g acc b)

theorem natCast_sum_len_ne_zero {α : Type} (a b : List α) (h : a ≠ [] ∨ b ≠ []) :
    ((a.length + b.length : ℕ) : ℚ) ≠ 0 := by
  have : a.length + b.length ≠ 0 := by
    rcases h with h | h
    · have := List.length_pos.mpr h; omega
    · have := List.length_pos.mpr h; omega
  exact_mod_cast this

theorem ne_lists_sum_len_ne_zero {α : Type} (a b : List α) (h : a ≠ b) :
    ((a.length + b.length : ℕ) : ℚ) ≠ 0 := by
  refine natCast_sum_len_ne_zero a b ?_
  by_cases ha : a = []
  · right; intro hb; exact h (ha.trans hb.symm)
  · left; exact ha

theorem alias_scan_ok (sa ta : List (List String)) :
    alias_scan sa ta = .ok (alias_scan_val sa ta) := by
  unfold alias_scan alias_scan_val
  refine foldlM_ok _ _ _ (fun acc s _ => ?_) _
  refine foldlM_ok _ _ _ (fun acc2 t _ => ?_) acc
  by_cases h : s ≠ [] ∧ t ≠ []
  · have hne : ((s.length + t.length : ℕ) : ℚ) ≠ 0 :=
      natCast_sum_len_ne_zero s t (Or.inl h.1)
    rw [if_pos h, if_pos h, pyDiv_ok _ _ hne]
    rfl
  · rw [if_neg h, if_neg h]
    rfl

theorem repr_vals_ok (eq : Bool) (a b : List String) (maxCh : ℚ)
    (h : eq = false → maxCh ≠ 0) :
    repr_vals eq a b maxCh = .ok (repr_vals_spec eq a b maxCh) := by
  cases eq
  · rw [repr_vals, repr_vals_spec, if_neg (by simp), if_neg (by simp),
      pyDiv_ok _ _ (h rfl)]
    rfl
  · rfl

theorem alias_vals_ok (ha : Bool) (sa ta : List (List String)) :
    alias_vals ha sa ta =
      .ok (if ha then ((0 : ℚ), (1 : ℚ)) else alias_scan_val sa ta) := by
  cases ha
  · simp [alias_vals, alias_scan_ok]
  · rfl

theorem percent_rel_ok (A B : Finset (List String)) :
    percent_rel A B = .ok (percent_rel_spec A B) := by
  unfold percent_rel percent_rel_spec
  by_cases h : (0 < A.card && 0 < B.card) = true
  · have hAB : 0 < A.card ∧ 0 < B.card := by simpa using h
    have hsum : (0 : ℚ) < ((A.card + B.card : ℕ) : ℚ) := by
      exact_mod_cast Nat.lt_of_lt_of_le hAB.1 (Nat.le_add_right _ _)
    have hne : ((A.card + B.card : ℕ) : ℚ) / 2 ≠ 0 := by positivity
    rw [if_pos h, if_pos h, pyDiv_ok _ _ hne]
  · rw [if_neg h, if_neg h]
    rfl

theorem calculate_features_eq (s t : TokenSig)
    (hstem : s.nameTokens = t.nameTokens → s.stemmedTokens = t.stemmedTokens)
    (hlem : s.nameTokens = t.nameTokens → s.lemmatizedTokens = t.lemmatizedTokens) :
    calculate_features s t = .ok (featuresSpec s t) := by
  have hname : decide (s.nameTokens = t.nameTokens) = false →
      ((s.nameTokens.length + t.nameTokens.length : ℕ) : ℚ) ≠ 0 := fun hd =>
    ne_lists_sum_len_ne_zero _ _ (by simpa using hd)
  have hstem' : decide (s.stemmedTokens = t.stemmedTokens) = false →
      ((s.nameTokens.length + t.nameTokens.length : ℕ) : ℚ) ≠ 0 := fun hd => by
    have hne : s.stemmedTokens ≠ t.stemmedTokens := by simpa using hd
    exact ne_lists_sum_len_ne_zero _ _ (fun hn => hne (hstem hn))
  have hlem' : decide (s.lemmatizedTokens = t.lemmatizedTokens) = false →
      ((s.nameTokens.length + t.nameTokens.length : ℕ) : ℚ) ≠ 0 := fun hd => by
    have hne : s.lemmatizedTokens ≠ t.lemmatizedTokens := by simpa using hd
    exact ne_lists_sum_len_ne_zero _ _ (fun hn => hne (hlem hn))
  have hchar : decide (s.charTokens = t.charTokens) = false →
      ((s.charTokens.length + t.charTokens.length : ℕ) : ℚ) ≠ 0 := fun hd =>
    ne_lists_sum_len_ne_zero _ _ (by simpa using hd)
  simp only [calculate_features]
  rw [repr_vals_ok _ _ _ _ hname, ok_bind, repr_vals_ok _ _ _ _ hstem', ok_bind,
    repr_vals_ok _ _ _ _ hlem', ok_bind, repr_vals_ok _ _ _ _ hchar, ok_bind,
    alias_vals_ok, ok_bind, percent_rel_ok, ok_bind, percent_rel_ok, ok_bind]
  simp only [featuresSpec, decide_eq_true_eq]
  rfl

/-- C3 counterexample: two signatures that share the alias token tuple
`("foo")` exactly.  `calculate_features` completes, `has_alias_in_common` is
true and the scan is skipped, but `inverse_min_alias_edit_distance` is
`1.0 - 1.0 = 0.0`, not the claimed baseline `1.0`. -/
theorem c3_counterexample :
    (calculate_features (TokenSig.mk ["a"] ["a"] ["a"] ["a"] [["foo"]] ∅ ∅)
        (TokenSig.mk ["b"] ["b"] ["b"] ["b"] [["foo"], ["bar"]] ∅ ∅)).map
        Features.has_alias_in_common = .ok true ∧
      (calculate_features (TokenSig.mk ["a"] ["a"] ["a"] ["a"] [["foo"]] ∅ ∅)
        (TokenSig.mk ["b"] ["b"] ["b"] ["b"] [["foo"], ["bar"]] ∅ ∅)).map
        Features.max_alias_token_jaccard = .ok 0 ∧
      (calculate_features (TokenSig.mk ["a"] ["a"] ["a"] ["a"] [["foo"]] ∅ ∅)
        (TokenSig.mk ["b"] ["b"] ["b"] ["b"] [["foo"], ["bar"]] ∅ ∅)).map
        Features.inverse_min_alias_edit_distance = .ok 0 ∧
      (0 : ℚ) ≠ 1 := by
  have h := calculate_features_eq (TokenSig.mk ["a"] ["a"] ["a"] ["a"] [["foo"]] ∅ ∅)
    (TokenSig.mk ["b"] ["b"] ["b"] ["b"] [["foo"], ["bar"]] ∅ ∅)
    (by intro h; exact h) (by intro h; exact h)
  rw [h]
  refine ⟨?_, ?_, ?_, by norm_num⟩ <;>
    simp [featuresSpec, repr_vals_spec] <;> decide

/-- C3 (amended): whenever the two entities share an alias token tuple
exactly (`has_alias_in_common` true), `calculate_features` skips the
best-alias scan entirely and the two alias features are left at the values
derived from the initial accumulators `(0.0, 1.0)`: `max_alias_token_jaccard`
is `0.0` and `inverse_min_alias_edit_distance` is `1.0 - 1.0 = 0.0` (not
`1.0`).  The stemming/lemmatizing hypotheses hold for every signature the
generator caches, since `_compute_tokens` stems and lemmatizes the raw name
tokens elementwise. -/
theorem c3_alias_in_common_scan_skipped (s t : TokenSig)
    (hstem : s.nameTokens = t.nameTokens → s.stemmedTokens = t.stemmedTokens)
    (hlem : s.nameTokens = t.nameTokens → s.lemmatizedTokens = t.lemmatizedTokens)
    (ha : 0 < (s.aliasTokens.toFinset ∩ t.aliasTokens.toFinset).card) :
    ∃ f : Features, calculate_features s t = .ok f ∧
      f.has_alias_in_common = true ∧
      f.max_alias_token_jaccard = 0 ∧
      f.inverse_min_alias_edit_distance = 0 := by
  refine ⟨_, calculate_features_eq s t hstem hlem, ?_, ?_, ?_⟩ <;>
    simp [featuresSpec, Finset.card_pos.mp ha]

theorem c3_witness :
    ((TokenSig.mk ["x"] ["x"] ["x"] ["x"] [["foo"]] ∅ ∅).nameTokens =
        (TokenSig.mk ["y"] ["y"] ["y"] ["y"] [["baz"], ["foo"]] ∅ ∅).nameTokens →
      (TokenSig.mk ["x"] ["x"] ["x"] ["x"] [["foo"]] ∅ ∅).stemmedTokens =
        (TokenSig.mk ["y"] ["y"] ["y"] ["y"] [["baz"], ["foo"]] ∅ ∅).stemmedTokens) ∧
    ((TokenSig.mk ["x"] ["x"] ["x"] ["x"] [["foo"]] ∅ ∅).nameTokens =
        (TokenSig.mk ["y"] ["y"] ["y"] ["y"] [["baz"], ["foo"]] ∅ ∅).nameTokens →
      (TokenSig.mk ["x"] ["x"] ["x"] ["x"] [["foo"]] ∅ ∅).lemmatizedTokens =
        (TokenSig.mk ["y"] ["y"] ["y"] ["y"] [["baz"], ["foo"]] ∅ ∅).lemmatizedTokens) ∧
    0 < ((TokenSig.mk ["x"] ["x"] ["x"] ["x"] [["foo"]] ∅ ∅).aliasTokens.toFinset ∩
        (TokenSig.mk ["y"] ["y"] ["y"] ["y"] [["baz"], ["foo"]] ∅ ∅).aliasTokens.toFinset).card ∧
    (∃ f : Features,
      calculate_features (TokenSig.mk ["x"] ["x"] ["x"] ["x"] [["foo"]] ∅ ∅)
          (TokenSig.mk ["y"] ["y"] ["y"] ["y"] [["baz"], ["foo"]] ∅ ∅) = .ok f ∧
        f.has_alias_in_common = true ∧
        f.max_alias_token_jaccard = 0 ∧
        f.inverse_min_alias_edit_distance = 0) :=
  ⟨by decide, by decide, by decide,
    c3_alias_in_common_scan_skipped _ _ (by decide) (by decide) (by decide)⟩

/-- C5: if the normalized canonical-name token sequences of the two entities
are identical (including the case where both are empty), then
`has_same_canonical_name` is true, `name_token_jaccard` is 1.0 and
`inverse_name_edit_distance` is 1.0, and the whole feature computation
completes without any division by zero (`.ok`), the equality flags
short-circuiting every division whose divisor could be zero. -/
theorem c5_same_canonical_name_maximal (s t : TokenSig)
    (hstem : s.nameTokens = t.nameTokens → s.stemmedTokens = t.stemmedTokens)
    (hlem : s.nameTokens = t.nameTokens → s.lemmatizedTokens = t.lemmatizedTokens)
    (hname : s.nameTokens = t.nameTokens) :
    ∃ f : Features, calculate_features s t = .ok f ∧
      f.has_same_canonical_name = true ∧
      f.name_token_jaccard = 1 ∧
      f.inverse_name_edit_distance = 1 := by
  refine ⟨_, calculate_features_eq s t hstem hlem, ?_, ?_, ?_⟩ <;>
    simp [featuresSpec, repr_vals_spec, hname]

theorem c5_witness :
    ((TokenSig.mk [] [] [] [] [] ∅ ∅).nameTokens =
        (TokenSig.mk [] [] [] [] [] ∅ ∅).nameTokens →
      (TokenSig.mk [] [] [] [] [] ∅ ∅).stemmedTokens =
        (TokenSig.mk [] [] [] [] [] ∅ ∅).stemmedTokens) ∧
    ((TokenSig.mk [] [] [] [] [] ∅ ∅).nameTokens =
        (TokenSig.mk [] [] [] [] [] ∅ ∅).nameTokens →
      (TokenSig.mk [] [] [] [] [] ∅ ∅).lemmatizedTokens =
        (TokenSig.mk [] [] [] [] [] ∅ ∅).lemmatizedTokens) ∧
    (TokenSig.mk [] [] [] [] [] ∅ ∅).nameTokens =
      (TokenSig.mk [] [] [] [] [] ∅ ∅).nameTokens ∧
    (∃ f : Features,
      calculate_features (TokenSig.mk [] [] [] [] [] ∅ ∅)
          (TokenSig.mk [] [] [] [] [] ∅ ∅) = .ok f ∧
        f.has_same_canonical_name = true ∧
        f.name_token_jaccard = 1 ∧
        f.inverse_name_edit_distance = 1) :=
  ⟨fun h => h, fun h => h, rfl,
    c5_same_canonical_name_maximal _ _ (fun h => h) (fun h => h) rfl⟩

/-- C6: for parents and for children independently, the relational-overlap
feature equals `|A ∩ B| / ((|A| + |B|) / 2)` (intersection size over the
average of the two set sizes) when both related-name sets are non-empty, and
0.0 when either side has none. -/
theorem c6_percent_in_common_avg_denominator (s t : TokenSig)
    (hstem : s.nameTokens = t.nameTokens → s.stemmedTokens = t.stemmedTokens)
    (hlem : s.nameTokens = t.nameTokens → s.lemmatizedTokens = t.lemmatizedTokens) :
    ∃ f : Features, calculate_features s t = .ok f ∧
      f.percent_parents_in_common =
        (if 0 < s.parentNames.card ∧ 0 < t.parentNames.card then
          ((s.parentNames ∩ t.parentNames).card : ℚ) /
            (((s.parentNames.card + t.parentNames.card : ℕ) : ℚ) / 2)
        else 0) ∧
      f.percent_children_in_common =
        (if 0 < s.childNames.card ∧ 0 < t.childNames.card then
          ((s.childNames ∩ t.childNames).card : ℚ) /
            (((s.childNames.card + t.childNames.card : ℕ) : ℚ) / 2)
        else 0) := by
  refine ⟨_, calculate_features_eq s t hstem hlem, ?_, ?_⟩ <;>
    simp only [featuresSpec, percent_rel_spec, Bool.and_eq_true, decide_eq_true_eq]

theorem c6_witness :
    ((TokenSig.mk ["p"] ["p"] ["p"] ["p"] [] {["u"], ["v"]} ∅).nameTokens =
        (TokenSig.mk ["q"] ["q"] ["q"] ["q"] [] {["u"]} {["w"]}).nameTokens →
      (TokenSig.mk ["p"] ["p"] ["p"] ["p"] [] {["u"], ["v"]} ∅).stemmedTokens =
        (TokenSig.mk ["q"] ["q"] ["q"] ["q"] [] {["u"]} {["w"]}).stemmedTokens) ∧
    ((TokenSig.mk ["p"] ["p"] ["p"] ["p"] [] {["u"], ["v"]} ∅).nameTokens =
        (TokenSig.mk ["q"] ["q"] ["q"] ["q"] [] {["u"]} {["w"]}).nameTokens →
      (TokenSig.mk ["p"] ["p"] ["p"] ["p"] [] {["u"], ["v"]} ∅).lemmatizedTokens =
        (TokenSig.mk ["q"] ["q"] ["q"] ["q"] [] {["u"]} {["w"]}).lemmatizedTokens) ∧
    (∃ f : Features,
      calculate_features (TokenSig.mk ["p"] ["p"] ["p"] ["p"] [] {["u"], ["v"]} ∅)
          (TokenSig.mk ["q"] ["q"] ["q"] ["q"] [] {["u"]} {["w"]}) = .ok f ∧
        f.percent_parents_in_common =
          (if 0 < ({["u"], ["v"]} : Finset (List String)).card ∧
              0 < ({["u"]} : Finset (List String)).card then
            ((({["u"], ["v"]} : Finset (List String)) ∩ {["u"]}).card : ℚ) /
              (((({["u"], ["v"]} : Finset (List String)).card +
                ({["u"]} : Finset (List String)).card : ℕ) : ℚ) / 2)
          else 0) ∧
        f.percent_children_in_common =
          (if 0 < (∅ : Finset (List String)).card ∧
              0 < ({["w"]} : Finset (List String)).card then
            (((∅ : Finset (List String)) ∩ {["w"]}).card : ℚ) /
              ((((∅ : Finset (List String)).card +
                ({["w"]} : Finset (List String)).card : ℕ) : ℚ) / 2)
          else 0)) :=
  ⟨by decide, by decide,
    c6_percent_in_common_avg_denominator _ _ (by decide) (by decide)⟩

theorem listCompM_ok {β γ : Type} (f : β → Except PyErr (Option γ)) (g : β → Option γ)
    (l : List β) (h : ∀ b ∈ l, f b = .ok (g b)) :
    listCompM f l = .ok (l.filterMap g) := by
  induction l with
  | nil => rfl
  | cons b l ih =>
    have hb := h b (by simp)
    have hl : ∀ x ∈ l, f x = .ok (g x) := fun x hx => h x (by simp [hx])
    simp only [listCompM, hb, ih hl, List.filterMap_cons, bind, Except.bind, pure, Except.pure]
    cases g b <;> simp

theorem measPositive_ok_of_parses (m : PyVal) (h : meas_parses m = true) :
    measPositive m = .ok (meas_positive_val m) := by
  cases m with
  | vNone => rfl
  | vNum q => rfl
  | vStr s =>
    by_cases hs : s = ""
    · simp [measPositive, meas_positive_val, hs]
    · have h' : (pyFloat s).isSome = true := by simpa [meas_parses, hs] using h
      obtain ⟨q, hq⟩ := Option.isSome_iff_exists.mp h'
      simp [measPositive, meas_positive_val, hs, hq]

theorem gold_positives_ok (gold : List (String × String × PyVal))
    (h : ∀ e ∈ gold, meas_parses e.2.2 = true) :
    gold_positives gold =
      .ok ((gold.filterMap fun e =>
        if meas_positive_val e.2.2 then some (e.1, e.2.1) else none).toFinset) := by
  have step : ∀ e ∈ gold,
      (do
        let b ← measPositive e.2.2
        pure (if b then some (e.1, e.2.1) else none) :
          Except PyErr (Option (String × String))) =
        .ok (if meas_positive_val e.2.2 then some (e.1, e.2.1) else none) := by
    intro e he
    rw [show (do
        let b ← measPositive e.2.2
        pure (if b then some (e.1, e.2.1) else none) :
          Except PyErr (Option (String × String))) =
        Except.bind (measPositive e.2.2)
          (fun b => .ok (if b then some (e.1, e.2.1) else none)) from rfl,
      measPositive_ok_of_parses e.2.2 (h e he)]
    rfl
  unfold gold_positives
  rw [listCompM_ok _ _ gold step]
  rfl

/-- C1: `evaluate_alignment` does not guard the recall denominator.  With a
non-empty predicted alignment and an empty gold-positive set (here a gold
file whose single entry has label 0), the recall computation
`len(...intersection...) / len(gold_positives)` divides by zero and the
evaluation raises `ZeroDivisionError` instead of completing with recall
omitted. -/
theorem c1_recall_division_unguarded :
    evaluate_alignment [("x", "y", PyVal.vNum 0)] [("a", "b", (1 : ℚ) / 2)] =
      .error .zeroDivisionError := by decide

/-- C2 counterexample: a gold entry whose measure is the non-float string
`"="` makes `gold_positives` (and with it the whole evaluation) raise
`ValueError`; it is not treated as a non-positive entry (which would yield
`.ok ∅`). -/
theorem c2_counterexample :
    gold_positives [("s", "t", PyVal.vStr "=")] = .error .valueError ∧
      evaluate_alignment [("s", "t", PyVal.vStr "=")] [("a", "b", (1 : ℚ) / 2)] =
        .error .valueError ∧
      (Except.error PyErr.valueError : Except PyErr (Finset (String × String))) ≠
        Except.ok ∅ := by decide

/-- C2 (amended): the gold positives are exactly the (source, target) pairs
whose measure is present, non-empty and float-parses to a value strictly
greater than 0 — provided every present non-empty measure float-parses; a
measure that does not parse as a float raises `ValueError` and aborts the
evaluation rather than being treated as non-positive. -/
theorem c2_gold_positives_characterization (gold : List (String × String × PyVal))
    (h : ∀ e ∈ gold, meas_parses e.2.2 = true) :
    ∃ gp : Finset (String × String), gold_positives gold = .ok gp ∧
      ∀ a b : String, (a, b) ∈ gp ↔
        ∃ m, (a, b, m) ∈ gold ∧ meas_positive_val m = true := by
  refine ⟨_, gold_positives_ok gold h, fun a b => ?_⟩
  simp only [List.mem_toFinset, List.mem_filterMap]
  constructor
  · rintro ⟨⟨e1, e2, m⟩, he, hcond⟩
    by_cases hp : meas_positive_val m
    · simp only [hp, if_true, Option.some.injEq, Prod.mk.injEq] at hcond
      obtain ⟨rfl, rfl⟩ := hcond
      exact ⟨m, he, hp⟩
    · simp [hp] at hcond
  · rintro ⟨m, hm, hp⟩
    exact ⟨(a, b, m), hm, by simp [hp]⟩

theorem c2_witness :
    (∀ e ∈ [("a", "b", PyVal.vNum 1), ("c", "d", PyVal.vStr "0.5"),
            ("e", "f", PyVal.vStr ""), ("g", "h", PyVal.vNone)],
        meas_parses e.2.2 = true) ∧
      (∃ gp : Finset (String × String),
        gold_positives [("a", "b", PyVal.vNum 1), ("c", "d", PyVal.vStr "0.5"),
            ("e", "f", PyVal.vStr ""), ("g", "h", PyVal.vNone)] = .ok gp ∧
        ∀ a b : String, (a, b) ∈ gp ↔
          ∃ m, (a, b, m) ∈ [("a", "b", PyVal.vNum 1), ("c", "d", PyVal.vStr "0.5"),
            ("e", "f", PyVal.vStr ""), ("g", "h", PyVal.vNone)] ∧
            meas_positive_val m = true) :=
  ⟨by decide, c2_gold_positives_characterization _ (by decide)⟩

/-- C4 counterexample: with the non-empty gold-positive set from the single
gold entry `("a", "b", 1.0)` and an empty predicted alignment, the evaluation
completes with recall `None` (omitted), not `0.0`. -/
theorem c4_counterexample :
    evaluate_alignment [("a", "b", PyVal.vNum 1)] [] =
        .ok (Option.none, Option.none, Option.none) ∧
      gold_positives [("a", "b", PyVal.vNum 1)] =
        .ok ({("a", "b")} : Finset (String × String)) ∧
      (Option.none : Option ℚ) ≠ some 0 := by decide

/-- C4 (amended): for every gold file whose gold-positive computation
succeeds (in particular for every non-empty gold positive set),
`evaluate_alignment` on an empty predicted alignment leaves precision, recall
and F1 all undefined/omitted (`None`); recall is not `0.0`. -/
theorem c4_empty_predicted_all_omitted (gold : List (String × String × PyVal))
    (gp : Finset (String × String)) (h : gold_positives gold = .ok gp) :
    evaluate_alignment gold [] = .ok (Option.none, Option.none, Option.none) := by
  simp [evaluate_alignment, h, bind, Except.bind, pure, Except.pure]

theorem c4_witness :
    gold_positives [("a", "b", PyVal.vNum 1)] = .ok ({("a", "b")} : Finset (String × String)) ∧
      evaluate_alignment [("a", "b", PyVal.vNum 1)] [] =
        .ok (Option.none, Option.none, Option.none) :=
  ⟨by decide, c4_empty_predicted_all_omitted [("a", "b", PyVal.vNum 1)]
    ({("a", "b")} : Finset (String × String)) (by decide)⟩

theorem foldl_append_ite {β γ : Type} (p : β → Prop) [DecidablePred p] (h : β → γ)
    (l : List β) :
    ∀ acc : List γ,
      l.foldl (fun a b => if p b then a ++ [h b] else a) acc =
        acc ++ l.filterMap fun b => if p b then some (h b) else none := by
  induction l with
  | nil => intro acc; simp
  | cons b l ih =>
    intro acc
    by_cases hp : p b <;> simp [hp, ih, List.filterMap_cons]

theorem foldl_append_flat {β γ : Type} (F : β → List γ) (l : List β) :
    ∀ acc : List γ,
      l.foldl (fun a b => a ++ F b) acc = acc ++ (l.map F).flatten := by
  induction l with
  | nil => intro acc; simp
  | cons b l ih => intro acc; simp [ih]

theorem align_eq (cand_sel : String → List String) (K : ℕ)
    (predict : String → String → ℚ) (threshold : ℚ) (s_kb : KnowledgeBase) :
    align cand_sel K predict threshold s_kb =
      (s_kb.entities.map fun e =>
        ((cand_sel e.research_entity_id).take K).filterMap fun t =>
          if threshold ≤ predict e.research_entity_id t then
            some (e.research_entity_id, t, predict e.research_entity_id t)
          else none).flatten := by
  unfold align
  rw [show (fun (alignment : List (String × String × ℚ)) (s_ent : Entity) =>
      ((cand_sel s_ent.research_entity_id).take K).foldl
        (fun alignment t_ent_id =>
          if threshold ≤ predict s_ent.research_entity_id t_ent_id then
            alignment ++ [(s_ent.research_entity_id, t_ent_id,
              predict s_ent.research_entity_id t_ent_id)]
          else alignment) alignment) =
      fun alignment s_ent => alignment ++
        ((cand_sel s_ent.research_entity_id).take K).filterMap fun t =>
          if threshold ≤ predict s_ent.research_entity_id t then
            some (s_ent.research_entity_id, t, predict s_ent.research_entity_id t)
          else none from funext fun a => funext fun e => foldl_append_ite _ _ _ a,
    foldl_append_flat]
  simp

/-- C8: in the prediction loop of `align`, each source entity has exactly the
first `K = KEEP_TOP_K_CANDIDATES` candidates of its candidate-selection
ranking scored — never more than `K` — and a triple (source id, target id,
score) appears in the produced alignment exactly when some source entity
carries that source id, the target id is among its top-`K` candidates, and
the classifier's match probability for the pair is the score and is at least
`SCORE_THRESHOLD`. -/
theorem c8_align_topk_and_threshold (cand_sel : String → List String) (K : ℕ)
    (predict : String → String → ℚ) (threshold : ℚ) (s_kb : KnowledgeBase) :
    (∀ e ∈ s_kb.entities, ((cand_sel e.research_entity_id).take K).length ≤ K) ∧
      ∀ sid tid sc,
        (sid, tid, sc) ∈ align cand_sel K predict threshold s_kb ↔
          ∃ e ∈ s_kb.entities, e.research_entity_id = sid ∧
            tid ∈ (cand_sel sid).take K ∧ sc = predict sid tid ∧ threshold ≤ sc := by
  constructor
  · intro e _
    simp [List.length_take]
  · intro sid tid sc
    rw [align_eq]
    simp only [List.mem_flatten, List.mem_map, List.mem_filterMap]
    constructor
    · rintro ⟨fs, ⟨e, he, rfl⟩, hmem⟩
      rw [List.mem_filterMap] at hmem
      obtain ⟨t, ht, hcond⟩ := hmem
      by_cases hth : threshold ≤ predict e.research_entity_id t
      · rw [if_pos hth] at hcond
        obtain ⟨rfl, rfl, rfl⟩ : e.research_entity_id = sid ∧ t = tid ∧
            predict e.research_entity_id t = sc := by
          simpa [Prod.ext_iff] using hcond
        exact ⟨e, he, rfl, ht, rfl, hth⟩
      · rw [if_neg hth] at hcond
        cases hcond
    · rintro ⟨e, he, rfl, ht, rfl, hth⟩
      refine ⟨_, ⟨e, he, rfl⟩, ?_⟩
      rw [List.mem_filterMap]
      exact ⟨tid, ht, by rw [if_pos hth]⟩

/-- C9: in `text_to_instance`, a list no longer than the sampling bound (16
for aliases, 8 for parent/child relations) is used unchanged (and the PRNG
state is not even consumed), while an oversized list is replaced by a
subsample of exactly the bound's size drawn from the list; the hypotheses are
the contract of Python's `random.sample`, and determinism under a fixed seed
is immediate because the embedded sampler is a pure function of the threaded
PRNG state. -/
theorem c9_sampling_bounds {ρ : Type} (sample : List String → ℕ → ρ → List String × ρ)
    (tokenize : String → List String) (s_ent t_ent : ReaderEntity)
    (label : Option String) (rs : ρ)
    (hlen : ∀ l k r, k < l.length → ((sample l k r).1).length = k)
    (hsub : ∀ l k r, k < l.length → ∀ x ∈ (sample l k r).1, x ∈ l) :
    (∀ (l : List String) (k : ℕ) (r : ρ), l.length ≤ k → sample_n sample l k r = (l, r)) ∧
      (∀ (l : List String) (k : ℕ) (r : ρ), k < l.length →
        (sample_n sample l k r).1.length = k ∧ ∀ x ∈ (sample_n sample l k r).1, x ∈ l) ∧
      (text_to_instance sample tokenize s_ent t_ent label rs).1.s_ent_aliases =
        (sample_n sample s_ent.aliases 16 rs).1.map tokenize ∧
      (text_to_instance sample tokenize s_ent t_ent label rs).1.t_ent_aliases =
        (sample_n sample t_ent.aliases 16
          (sample_n sample s_ent.aliases 16 rs).2).1.map tokenize := by
  refine ⟨fun l k r hlk => ?_, fun l k r hkl => ?_, rfl, rfl⟩
  · simp [sample_n, hlk]
  · have hnot : ¬ l.length ≤ k := by omega
    simp only [sample_n, hnot, if_neg, if_false]
    exact ⟨hlen l k r hkl, hsub l k r hkl⟩

theorem c9_witness :
    (∀ (l : List String) (k : ℕ) (r : Unit), k < l.length →
      (((fun l k _ => (l.take k, ())) : List String → ℕ → Unit → List String × Unit)
        l k r).1.length = k) ∧
    (∀ (l : List String) (k : ℕ) (r : Unit), k < l.length →
      ∀ x ∈ (((fun l k _ => (l.take k, ())) :
        List String → ℕ → Unit → List String × Unit) l k r).1, x ∈ l) ∧
    ((∀ (l : List String) (k : ℕ) (r : Unit), l.length ≤ k →
        sample_n (fun l k _ => (l.take k, ())) l k r = (l, r)) ∧
      (∀ (l : List String) (k : ℕ) (r : Unit), k < l.length →
        (sample_n (fun l k _ => (l.take k, ())) l k r).1.length = k ∧
          ∀ x ∈ (sample_n (fun l k _ => (l.take k, ())) l k r).1, x ∈ l) ∧
      (text_to_instance (fun l k _ => (l.take k, ())) (fun s => [s])
        (ReaderEntity.mk "c" ["a1", "a2"] "" ["p1"] [])
        (ReaderEntity.mk "d" ["b1"] "def" [] ["c1"]) (some "1") ()).1.s_ent_aliases =
        (sample_n (fun l k _ => (l.take k, ())) ["a1", "a2"] 16 ()).1.map (fun s => [s]) ∧
      (text_to_instance (fun l k _ => (l.take k, ())) (fun s => [s])
        (ReaderEntity.mk "c" ["a1", "a2"] "" ["p1"] [])
        (ReaderEntity.mk "d" ["b1"] "def" [] ["c1"]) (some "1") ()).1.t_ent_aliases =
        (sample_n (fun l k _ => (l.take k, ())) ["b1"] 16
          (sample_n (fun l k _ => (l.take k, ())) ["a1", "a2"] 16 ()).2).1.map
          (fun s => [s])) :=
  ⟨fun l k _ h => by simp [List.length_take]; omega,
   fun l _ _ _ x hx => List.mem_of_mem_take hx,
   c9_sampling_bounds (fun l k _ => (l.take k, ())) (fun s => [s])
     (ReaderEntity.mk "c" ["a1", "a2"] "" ["p1"] [])
     (ReaderEntity.mk "d" ["b1"] "def" [] ["c1"]) (some "1") ()
     (fun l k _ h => by simp [List.length_take]; omega)
     (fun l _ _ _ x hx => List.mem_of_mem_take hx)⟩

/-- C10: `_get_ent_names_from_relations` resolves only `entity_ids[1]` of each
relation listed in the entity's `relation_ids`.  Provided every listed
relation id is present in `kb.relations` (a missing one raises `KeyError`)
and every matching-type relation has a second endpoint (fewer than two
endpoints raises `IndexError`), the call succeeds and returns exactly the
names obtained by: taking each listed relation, keeping it when its type is
in `rel_types`, taking its second endpoint `entity_ids[1]`, dropping it when
that id is absent from the entity index (a silent skip, no error), resolving
it, and tokenizing the normalized canonical name.  The first endpoint
`entity_ids[0]` never enters this dataflow, so a relation in which the given
entity is itself the second endpoint contributes the given entity's own name,
not the first endpoint's. -/
theorem c10_second_endpoint_only (normalize : String → String)
    (tokenize : String → List String) (ent : Entity) (kb : KnowledgeBase)
    (rel_types : List String)
    (hrel : ∀ rid ∈ ent.relation_ids, (kb.relations.lookup rid).isSome)
    (hbin : ∀ rid ∈ ent.relation_ids, ∀ r, kb.relations.lookup rid = some r →
      r.relation_type ∈ rel_types → (r.entity_ids.get? 1).isSome) :
    get_ent_names_from_relations normalize tokenize ent kb rel_types =
      .ok (ent.relation_ids.filterMap fun rid =>
        (kb.relations.lookup rid).bind fun rel =>
          if rel.relation_type ∈ rel_types then
            (rel.entity_ids.get? 1).bind fun eid =>
              if (kb.research_entity_id_to_entity_index.lookup eid).isSome then
                (get_entity_by_research_entity_id kb eid).map fun e =>
                  tokenize (normalize e.canonical_name)
              else none
          else none) := by
  have step1 : listCompM (fun relId =>
      match kb.relations.lookup relId with
      | some r => pure (some r)
      | none => .error .keyError) ent.relation_ids =
      .ok (ent.relation_ids.filterMap fun rid => kb.relations.lookup rid) := by
    refine listCompM_ok _ _ _ fun rid hr => ?_
    obtain ⟨r, hr'⟩ := Option.isSome_iff_exists.mp (hrel rid hr)
    rw [hr']
    rfl
  have step2 : listCompM (fun rel : Relation =>
      if rel.relation_type ∈ rel_types then
        match rel.entity_ids.get? 1 with
        | none => .error .indexError
        | some eid =>
          pure (if (kb.research_entity_id_to_entity_index.lookup eid).isSome
                then some eid else none)
      else pure none)
      (ent.relation_ids.filterMap fun rid => kb.relations.lookup rid) =
      .ok ((ent.relation_ids.filterMap fun rid => kb.relations.lookup rid).filterMap
        fun rel =>
          if rel.relation_type ∈ rel_types then
            (rel.entity_ids.get? 1).bind fun eid =>
              if (kb.research_entity_id_to_entity_index.lookup eid).isSome
              then some eid else none
          else none) := by
    refine listCompM_ok _ _ _ fun rel hr => ?_
    obtain ⟨rid, hridmem, hlook⟩ := List.mem_filterMap.mp hr
    by_cases hty : rel.relation_type ∈ rel_types
    · obtain ⟨eid, heid⟩ := Option.isSome_iff_exists.mp (hbin rid hridmem rel hlook hty)
      rw [if_pos hty, if_pos hty, heid]
      rfl
    · rw [if_neg hty, if_neg hty]
      rfl
  unfold get_ent_names_from_relations
  rw [step1, ok_bind, step2, ok_bind, List.filterMap_filterMap, List.filterMap_filterMap]
  refine congrArg Except.ok (List.filterMap_congr fun rid _ => ?_)
  cases kb.relations.lookup rid with
  | none => rfl
  | some rel =>
    simp only [Option.some_bind]
    by_cases hty : rel.relation_type ∈ rel_types
    · simp only [if_pos hty]
      cases rel.entity_ids.get? 1 with
      | none => rfl
      | some eid =>
        simp only [Option.some_bind]
        by_cases hidx : (kb.research_entity_id_to_entity_index.lookup eid).isSome
        · simp [hidx]
        · simp [hidx]
    · simp [hty]

theorem c10_witness :
    (∀ rid ∈ (Entity.mk "E" "ename" [] ["r1", "r2", "r3", "r4"]).relation_ids,
      ((KnowledgeBase.mk
        [Entity.mk "E" "ename" [] ["r1", "r2", "r3", "r4"], Entity.mk "P" "pname" [] [],
          Entity.mk "Q" "qname" [] []]
        [("r1", Relation.mk "PAR" ["E", "P"]), ("r2", Relation.mk "PAR" ["Q", "E"]),
          ("r3", Relation.mk "PAR" ["E", "missing"]), ("r4", Relation.mk "SIB" ["E", "Q"])]
        [("E", 0), ("P", 1), ("Q", 2)]).relations.lookup rid).isSome) ∧
    (∀ rid ∈ (Entity.mk "E" "ename" [] ["r1", "r2", "r3", "r4"]).relation_ids,
      ∀ r, (KnowledgeBase.mk
        [Entity.mk "E" "ename" [] ["r1", "r2", "r3", "r4"], Entity.mk "P" "pname" [] [],
          Entity.mk "Q" "qname" [] []]
        [("r1", Relation.mk "PAR" ["E", "P"]), ("r2", Relation.mk "PAR" ["Q", "E"]),
          ("r3", Relation.mk "PAR" ["E", "missing"]), ("r4", Relation.mk "SIB" ["E", "Q"])]
        [("E", 0), ("P", 1), ("Q", 2)]).relations.lookup rid = some r →
        r.relation_type ∈ PARENT_REL_LABELS → (r.entity_ids.get? 1).isSome) ∧
    get_ent_names_from_relations (fun s => s) (fun s => [s])
      (Entity.mk "E" "ename" [] ["r1", "r2", "r3", "r4"])
      (KnowledgeBase.mk
        [Entity.mk "E" "ename" [] ["r1", "r2", "r3", "r4"], Entity.mk "P" "pname" [] [],
          Entity.mk "Q" "qname" [] []]
        [("r1", Relation.mk "PAR" ["E", "P"]), ("r2", Relation.mk "PAR" ["Q", "E"]),
          ("r3", Relation.mk "PAR" ["E", "missing"]), ("r4", Relation.mk "SIB" ["E", "Q"])]
        [("E", 0), ("P", 1), ("Q", 2)]) PARENT_REL_LABELS =
      .ok [["pname"], ["ename"]] :=
  ⟨by decide, by decide, by
    rw [c10_second_endpoint_only (fun s => s) (fun s => [s])
      (Entity.mk "E" "ename" [] ["r1", "r2", "r3", "r4"])
      (KnowledgeBase.mk
        [Entity.mk "E" "ename" [] ["r1", "r2", "r3", "r4"], Entity.mk "P" "pname" [] [],
          Entity.mk "Q" "qname" [] []]
        [("r1", Relation.mk "PAR" ["E", "P"]), ("r2", Relation.mk "PAR" ["Q", "E"]),
          ("r3", Relation.mk "PAR" ["E", "missing"]), ("r4", Relation.mk "SIB" ["E", "Q"])]
        [("E", 0), ("P", 1), ("Q", 2)]) PARENT_REL_LABELS (by decide) (by decide)]
    decide⟩

/-- A character that the csv dialect treats literally inside an unquoted
field: not the delimiter, not a line break, not the quote character. -/
def cleanChar (c : Char) : Bool :=
  !(c = '\t' || c = '\n' || c = '\r' || c = '"')

/-- All characters of a rendered field are clean. -/
def cleanChars (cs : List Char) : Prop :=
  ∀ c ∈ cs, cleanChar c = true

theorem universal_newlines_id (cs : List Char) (h : ∀ c ∈ cs, c ≠ '\r') :
    universal_newlines cs = cs := by
  induction cs with
  | nil => rfl
  | cons c rest ih =>
    have hc : c ≠ '\r' := h c (by simp)
    have ih' := ih fun x hx => h x (by simp [hx])
    cases rest with
    | nil => simp [universal_newlines, hc]
    | cons c2 rest' => simp [universal_newlines, hc, ih']

theorem csvStep_start_clean (rows : List (List (List Char))) (flds : List (List Char))
    (acc : List Char) (b : Bool) (c : Char) (h : cleanChar c = true) :
    csvStep ⟨rows, flds, acc, .start b⟩ c = ⟨rows, flds, acc ++ [c], .unq⟩ := by
  simp only [cleanChar, Bool.not_eq_true', Bool.or_eq_false_iff, decide_eq_false_iff_not] at h
  simp [csvStep, h.1.1.1, h.1.1.2, h.1.2, h.2]

theorem csvStep_unq_clean (rows : List (List (List Char))) (flds : List (List Char))
    (acc : List Char) (c : Char) (h : cleanChar c = true) :
    csvStep ⟨rows, flds, acc, .unq⟩ c = ⟨rows, flds, acc ++ [c], .unq⟩ := by
  simp only [cleanChar, Bool.not_eq_true', Bool.or_eq_false_iff, decide_eq_false_iff_not] at h
  simp [csvStep, h.1.1.1, h.1.1.2]

theorem foldl_unq_clean (cs : List Char) (h : cleanChars cs) :
    ∀ (rows : List (List (List Char))) (flds : List (List Char)) (acc : List Char),
      List.foldl csvStep ⟨rows, flds, acc, .unq⟩ cs = ⟨rows, flds, acc ++ cs, .unq⟩ := by
  induction cs with
  | nil => intro rows flds acc; simp
  | cons c cs ih =>
    intro rows flds acc
    have hc := h c (by simp)
    have ih' := ih fun x hx => h x (by simp [hx])
    simp only [List.foldl_cons, csvStep_unq_clean rows flds acc c hc, ih']
    simp

theorem foldl_field (cs : List Char) (h : cleanChars cs) (rest : List Char)
    (rows : List (List (List Char))) (flds : List (List Char)) (b : Bool) :
    List.foldl csvStep ⟨rows, flds, [], .start b⟩ (cs ++ '\t' :: rest) =
      List.foldl csvStep ⟨rows, flds ++ [cs], [], .start false⟩ rest := by
  cases cs with
  | nil =>
    simp only [List.nil_append, List.foldl_cons]
    have : csvStep ⟨rows, flds, [], .start b⟩ '\t' = ⟨rows, flds ++ [[]], [], .start false⟩ := by
      simp [csvStep]
    rw [this]
  | cons c cs =>
    have hc := h c (by simp)
    have h' : cleanChars cs := fun x hx => h x (by simp [hx])
    simp only [List.cons_append, List.foldl_cons, csvStep_start_clean rows flds [] b c hc,
      List.nil_append]
    rw [List.foldl_append, foldl_unq_clean cs h' rows flds [c]]
    have ht : csvStep ⟨rows, flds, [c] ++ cs, .unq⟩ '\t' =
        ⟨rows, flds ++ [c :: cs], [], .start false⟩ := by
      simp [csvStep]
    simp only [List.foldl_cons, ht]

theorem foldl_lastfield (cs : List Char) (h : cleanChars cs) (hne : cs ≠ [])
    (rest : List Char) (rows : List (List (List Char))) (flds : List (List Char)) (b : Bool) :
    List.foldl csvStep ⟨rows, flds, [], .start b⟩ (cs ++ '\n' :: rest) =
      List.foldl csvStep ⟨rows ++ [flds ++ [cs]], [], [], .start true⟩ rest := by
  cases cs with
  | nil => exact absurd rfl hne
  | cons c cs =>
    have hc := h c (by simp)
    have h' : cleanChars cs := fun x hx => h x (by simp [hx])
    simp only [List.cons_append, List.foldl_cons, csvStep_start_clean rows flds [] b c hc,
      List.nil_append]
    rw [List.foldl_append, foldl_unq_clean cs h' rows flds [c]]
    have ht : csvStep ⟨rows, flds, [c] ++ cs, .unq⟩ '\n' =
        ⟨rows ++ [flds ++ [c :: cs]], [], [], .start true⟩ := by
      simp [csvStep]
    simp only [List.foldl_cons, ht]

theorem foldl_record (showScore : ℚ → List Char) (e : String × String × ℚ)
    (rest : List Char) (rows : List (List (List Char)))
    (hs : cleanChars e.1.data) (ht : cleanChars e.2.1.data)
    (hsc : cleanChars (showScore e.2.2)) :
    List.foldl csvStep ⟨rows, [], [], .start true⟩ (tsvLine showScore e ++ rest) =
      List.foldl csvStep
        ⟨rows ++ [[e.1.data, e.2.1.data, showScore e.2.2, "OntoEmma".data]], [], [],
          .start true⟩ rest := by
  have hOnto : cleanChars ("OntoEmma".data) := by unfold cleanChars; decide
  have hOntoNe : ("OntoEmma".data : List Char) ≠ [] := by decide
  have hline : tsvLine showScore e ++ rest =
      e.1.data ++ '\t' :: (e.2.1.data ++ '\t' :: (showScore e.2.2 ++ '\t' ::
        ("OntoEmma".data ++ '\n' :: rest))) := by
    simp [tsvLine]
  rw [hline, foldl_field _ hs, foldl_field _ ht, foldl_field _ hsc,
    foldl_lastfield _ hOnto hOntoNe]
  simp

theorem csv_rows (showScore : ℚ → List Char) (l : List (String × String × ℚ))
    (h : ∀ e ∈ l, cleanChars e.1.data ∧ cleanChars e.2.1.data ∧
      cleanChars (showScore e.2.2)) :
    ∀ rows : List (List (List Char)),
      List.foldl csvStep ⟨rows, [], [], .start true⟩ ((l.map (tsvLine showScore)).flatten) =
        ⟨rows ++ l.map (fun e => [e.1.data, e.2.1.data, showScore e.2.2, "OntoEmma".data]),
          [], [], .start true⟩ := by
  induction l with
  | nil => intro rows; simp
  | cons e l ih =>
    intro rows
    obtain ⟨hs, ht, hsc⟩ := h e (by simp)
    have ih' := ih (fun x hx => h x (by simp [hx]))
      (rows ++ [[e.1.data, e.2.1.data, showScore e.2.2, "OntoEmma".data]])
    simp only [List.map_cons, List.flatten_cons, List.foldl_append]
    rw [show List.foldl csvStep ⟨rows, [], [], CsvMode.start true⟩ (tsvLine showScore e) =
        List.foldl csvStep ⟨rows ++ [[e.1.data, e.2.1.data, showScore e.2.2,
          "OntoEmma".data]], [], [], .start true⟩ [] from by
      simpa using foldl_record showScore e [] rows hs ht hsc]
    simp only [List.foldl_nil, ih']
    simp

theorem load_rows (showScore : ℚ → List Char) (l : List (String × String × ℚ))
    (h : ∀ e ∈ l, pyFloat (String.mk (showScore e.2.2)) = some e.2.2) :
    listCompM load_tsv_row
      (l.map fun e => [e.1.data, e.2.1.data, showScore e.2.2, "OntoEmma".data]) =
      .ok l := by
  induction l with
  | nil => rfl
  | cons e l ih =>
    have he := h e (by simp)
    have ih' := ih fun x hx => h x (by simp [hx])
    simp only [List.map_cons, listCompM]
    rw [show load_tsv_row [e.1.data, e.2.1.data, showScore e.2.2, "OntoEmma".data] =
        .ok (some e) from by simp [load_tsv_row, he], ok_bind, ih', ok_bind]
    rfl

theorem write_no_cr (showScore : ℚ → List Char) (alignment : List (String × String × ℚ))
    (h : ∀ e ∈ alignment, cleanChars e.1.data ∧ cleanChars e.2.1.data ∧
      cleanChars (showScore e.2.2)) :
    ∀ c ∈ write_alignment_to_tsv showScore alignment, c ≠ '\r' := by
  intro c hc heq
  subst heq
  unfold write_alignment_to_tsv at hc
  rw [List.mem_flatten] at hc
  obtain ⟨line, hline, hcl⟩ := hc
  rw [List.mem_map] at hline
  obtain ⟨e, he, rfl⟩ := hline
  have he' : e ∈ alignment :=
    (List.perm_insertionSort
      (fun a b : String × String × ℚ => b.2.2 ≤ a.2.2) alignment).mem_iff.mp he
  obtain ⟨hs, ht, hsc⟩ := h e he'
  have hlinemem : ('\r' : Char) ∈ e.1.data ++ '\t' :: (e.2.1.data ++ '\t' ::
      (showScore e.2.2 ++ '\t' :: ("OntoEmma".data ++ ['\n']))) := by
    rw [show e.1.data ++ '\t' :: (e.2.1.data ++ '\t' :: (showScore e.2.2 ++ '\t' ::
        ("OntoEmma".data ++ ['\n']))) = tsvLine showScore e from by simp [tsvLine]]
    exact hcl
  clear hcl
  rw [List.mem_append, List.mem_cons] at hlinemem
  rcases hlinemem with h1 | h1 | h1
  · have := hs _ h1; simp [cleanChar] at this
  · exact absurd h1 (by decide)
  rw [List.mem_append, List.mem_cons] at h1
  rcases h1 with h1 | h1 | h1
  · have := ht _ h1; simp [cleanChar] at this
  · exact absurd h1 (by decide)
  rw [List.mem_append, List.mem_cons] at h1
  rcases h1 with h1 | h1 | h1
  · have := hsc _ h1; simp [cleanChar] at this
  · exact absurd h1 (by decide)
  rw [List.mem_append] at h1
  rcases h1 with h1 | h1
  · exact absurd h1 (by decide)
  · exact absurd h1 (by decide)

/-- C7 (amended): for every finite alignment whose ids and rendered scores
contain no tab, no line break (LF or CR), and no double-quote character, and
whose score rendering float-parses back to the same value (true of Python's
`str`/`float` on floats), writing with `_write_alignment_to_tsv` and
re-reading with `_load_alignment_from_tsv` succeeds and yields exactly the
score-sorted triples — the same set (and multiset) of (source, target, score)
triples. -/
theorem c7_tsv_roundtrip (showScore : ℚ → List Char)
    (alignment : List (String × String × ℚ))
    (hclean : ∀ e ∈ alignment, cleanChars e.1.data ∧ cleanChars e.2.1.data ∧
      cleanChars (showScore e.2.2))
    (hparse : ∀ e ∈ alignment, pyFloat (String.mk (showScore e.2.2)) = some e.2.2) :
    load_alignment_from_tsv (write_alignment_to_tsv showScore alignment) =
      .ok (List.insertionSort (fun a b : String × String × ℚ => b.2.2 ≤ a.2.2) alignment) ∧
      (List.insertionSort (fun a b : String × String × ℚ => b.2.2 ≤ a.2.2)
        alignment).toFinset = alignment.toFinset := by
  have hperm := List.perm_insertionSort
    (fun a b : String × String × ℚ => b.2.2 ≤ a.2.2) alignment
  refine ⟨?_, List.toFinset_eq_of_perm _ _ hperm⟩
  have hclean' : ∀ e ∈ List.insertionSort
      (fun a b : String × String × ℚ => b.2.2 ≤ a.2.2) alignment,
      cleanChars e.1.data ∧ cleanChars e.2.1.data ∧ cleanChars (showScore e.2.2) :=
    fun e he => hclean e (hperm.mem_iff.mp he)
  have hparse' : ∀ e ∈ List.insertionSort
      (fun a b : String × String × ℚ => b.2.2 ≤ a.2.2) alignment,
      pyFloat (String.mk (showScore e.2.2)) = some e.2.2 :=
    fun e he => hparse e (hperm.mem_iff.mp he)
  unfold load_alignment_from_tsv
  rw [universal_newlines_id _ (write_no_cr showScore alignment hclean)]
  unfold write_alignment_to_tsv csv_reader
  rw [csv_rows showScore _ hclean' []]
  rw [show csvFinish ⟨[] ++ (List.insertionSort
      (fun a b : String × String × ℚ => b.2.2 ≤ a.2.2) alignment).map
        (fun e => [e.1.data, e.2.1.data, showScore e.2.2, "OntoEmma".data]),
      [], [], .start true⟩ =
      (List.insertionSort (fun a b : String × String × ℚ => b.2.2 ≤ a.2.2) alignment).map
        (fun e => [e.1.data, e.2.1.data, showScore e.2.2, "OntoEmma".data]) from by
    simp [csvFinish]]
  exact load_rows showScore _ hparse'

/-- C7 counterexample: the id `"a"` (with literal double quotes) is tab-free,
so the claim applies, yet the round trip through the tsv writer and the csv
reader strips the quotes: the re-read set contains the source id `a`, not
`"a"`, so the original set of triples is not recovered. -/
theorem c7_counterexample :
    ('\t' ∉ ("\"a\"" : String).data ∧ '\t' ∉ ("b" : String).data) ∧
      (load_alignment_from_tsv (write_alignment_to_tsv (fun _ => ['1'])
          [("\"a\"", "b", (1 : ℚ))])).map (List.map fun e => (e.1, e.2.1)) =
        .ok [("a", "b")] ∧
      ("a" : String) ≠ "\"a\"" := by decide

theorem c7_witness :
    (∀ e ∈ [(("a" : String), ("b" : String), (1 : ℚ))],
      cleanChars e.1.data ∧ cleanChars e.2.1.data ∧
        cleanChars ((fun _ : ℚ => ['1']) e.2.2)) ∧
      (∀ e ∈ [(("a" : String), ("b" : String), (1 : ℚ))],
        pyFloat (String.mk ((fun _ : ℚ => ['1']) e.2.2)) = some e.2.2) ∧
      (load_alignment_from_tsv (write_alignment_to_tsv (fun _ => ['1'])
          [("a", "b", (1 : ℚ))]) =
        .ok (List.insertionSort (fun a b : String × String × ℚ => b.2.2 ≤ a.2.2)
          [("a", "b", (1 : ℚ))]) ∧
        (List.insertionSort (fun a b : String × String × ℚ => b.2.2 ≤ a.2.2)
          [("a", "b", (1 : ℚ))]).toFinset = [("a", "b", (1 : ℚ))].toFinset) :=
  ⟨by simp only [cleanChars]; decide,
   by
    intro e he
    simp only [List.mem_singleton] at he
    subst he
    simp [pyFloat, pyFloatMag, parseExpSuffix, digitsVal, isPySpace],
   c7_tsv_roundtrip (fun _ => ['1']) [("a", "b", (1 : ℚ))]
     (by simp only [cleanChars]; decide)
     (by
      intro e he
      simp only [List.mem_singleton] at he
      subst he
      simp [pyFloat, pyFloatMag, parseExpSuffix, digitsVal, isPySpace])⟩

end Ontoemma
